import Mathlib

/-!
Verification of the reconciliation core of `online_scraper.py` (DamaDam online
profile scraper).  The shallow embedding below translates the pure string
helpers (`clean_data`, `convert_date`, `col_letter`), the resilient writer
(`SheetsManager.safe_update`), the reconciler (`SheetsManager.write_profile`,
`SheetsManager.apply_formulas`), the event logger
(`SheetsManager.log_online_status`) and the dashboard behaviour of `main`
into Lean.  Remote spreadsheet operations are modelled as pure state
transitions under the assumption that the remote calls succeed; the trace of
issued operations is returned explicitly so that claims about which writes
happen can be stated.
-/

namespace Scraper

/-! ### Python string primitives -/

/-- ASCII whitespace, as recognised by Python `str.strip()` and regex `\s`. -/
def isPySpace (c : Char) : Bool :=
  c = ' ' || c = '\t' || c = '\n' || c = '\r' || c = '\x0b' || c = '\x0c'

/-- Character-list form of Python `str.strip()`: drop whitespace from both ends. -/
def stripChars (l : List Char) : List Char :=
  ((l.dropWhile isPySpace).reverse.dropWhile isPySpace).reverse

/-- Python `value.strip()`. -/
def pyStrip (s : String) : String := ⟨stripChars s.data⟩

theorem dropWhile_dropWhile_self (p : Char → Bool) (l : List Char) :
    (l.dropWhile p).dropWhile p = l.dropWhile p := by
  induction l with
  | nil => rfl
  | cons a t ih =>
      by_cases h : p a
      · simp [List.dropWhile_cons, h, ih]
      · simp [List.dropWhile_cons, h]

theorem dropWhile_eq_self_of_head (p : Char → Bool) (l : List Char)
    (h : ∀ a, l.head? = some a → p a = false) : l.dropWhile p = l := by
  cases l with
  | nil => rfl
  | cons a t => simp [List.dropWhile_cons, h a rfl]

theorem head_dropWhile_false (p : Char → Bool) (l : List Char) :
    ∀ a, (l.dropWhile p).head? = some a → p a = false := by
  induction l with
  | nil => intro a h; simp at h
  | cons b t ih =>
      intro a h
      by_cases hb : p b
      · exact ih a (by simpa only [List.dropWhile_cons, hb, if_true] using h)
      · rw [List.dropWhile_cons, if_neg (by simp [hb])] at h
        simp only [List.head?_cons, Option.some.injEq] at h
        rw [← h]
        simpa using hb

theorem getLast?_dropWhile (p : Char → Bool) (l : List Char)
    (h : l.dropWhile p ≠ []) : (l.dropWhile p).getLast? = l.getLast? := by
  induction l with
  | nil => simp at h
  | cons b t ih =>
      by_cases hb : p b
      · rw [List.dropWhile_cons, if_pos hb] at h ⊢
        have ht : t ≠ [] := by
          rintro rfl; simp at h
        rw [ih h]
        cases t with
        | nil => exact absurd rfl ht
        | cons c u => rw [List.getLast?_cons_cons]
      · rw [List.dropWhile_cons, if_neg hb]

theorem stripChars_idem (l : List Char) : stripChars (stripChars l) = stripChars l := by
  unfold stripChars
  by_cases hBnil : (l.dropWhile isPySpace).reverse.dropWhile isPySpace = []
  · rw [hBnil]; rfl
  · have h1 : ((l.dropWhile isPySpace).reverse.dropWhile isPySpace).reverse.dropWhile isPySpace
        = ((l.dropWhile isPySpace).reverse.dropWhile isPySpace).reverse := by
      apply dropWhile_eq_self_of_head
      intro a ha
      rw [List.head?_reverse] at ha
      rw [getLast?_dropWhile _ _ hBnil, List.getLast?_reverse] at ha
      exact head_dropWhile_false _ _ a ha
    rw [h1, List.reverse_reverse, dropWhile_dropWhile_self]

theorem pyStrip_idem (s : String) : pyStrip (pyStrip s) = pyStrip s :=
  congrArg String.mk (stripChars_idem s.data)

/-- Python `s.lower()` (ASCII case folding, character by character). -/
def pyLower (s : String) : String := ⟨s.data.map Char.toLower⟩

/-- Prefix test on character lists (used to model regex literal matching). -/
def startsWithChars : List Char → List Char → Bool
  | [], _ => true
  | _ :: _, [] => false
  | a :: as, b :: bs => a = b && startsWithChars as bs

/-- Python `sub in s` substring containment. -/
def strContains (s sub : String) : Bool :=
  s.data.tails.any (startsWithChars sub.data)

/-! ### `clean_data` (src/online_scraper.py lines 103-110) -/

/-- The fixed denylist of `clean_data`, exactly the literals in the source. -/
def removeList : List String :=
  ["No city", "Not set", "[No Posts]", "N/A", "no city", "not set",
   "[no posts]", "n/a", "[No Post URL]", "[Error]", "no set", "none", "null", "no age"]

/-- `clean_data(value)`: falsy input gives `""`; otherwise the value is stripped
and compared against the exact denylist literals; a hit gives `""`, otherwise
the stripped value is returned. -/
def cleanData (value : String) : String :=
  if value = "" then ""
  else if pyStrip value ∈ removeList then "" else pyStrip value

theorem cleanData_trimFixed (v : String) : pyStrip (cleanData v) = cleanData v := by
  unfold cleanData
  split
  · rfl
  · split
    · rfl
    · exact pyStrip_idem v

/-! ### `col_letter` (src lines 165-173) -/

/-- Loop body of `col_letter`: while `idx > 0`, take `idx -= 1`, prepend
`chr(idx % 26 + ord('A'))`, and continue with `idx //= 26`.  The loop
variable strictly decreases (`m / 26 < m + 1`), so fuelling the recursion
with the initial value makes the fuel sufficient. -/
def colLetterGo : Nat → Nat → String → String
  | 0, _, acc => acc
  | _ + 1, 0, acc => acc
  | fuel + 1, m + 1, acc =>
      colLetterGo fuel (m / 26) (String.singleton (Char.ofNat (m % 26 + 65)) ++ acc)

/-- `col_letter(idx)`: spreadsheet column letter of a 0-based column index. -/
def colLetter (idx : Nat) : String := colLetterGo (idx + 1) (idx + 1) ""

/-! ### `safe_update` (src lines 655-671)

The wrapped operation is modelled as a function from the attempt number to
`Except String α` (exception message or result).  The model returns the
result (`none` when all attempts fail, matching the `return None` paths) and
the list of quota-backoff sleeps `(attempt+1)*5` that were performed.  The
fixed courtesy delay `SHEET_DELAY` slept after a success is not a backoff
sleep and is not recorded. -/

/-- The quota/rate-limit error signature: `'429' in str(e) or 'quota' in str(e).lower()`. -/
def isQuotaError (e : String) : Bool :=
  strContains e "429" || strContains (pyLower e) "quota"

/-- The retry loop of `safe_update`, starting at a given attempt index. -/
def safeUpdateGo {α : Type} (f : Nat → Except String α) (retries attempt : Nat) :
    Option α × List Nat :=
  if attempt < retries then
    match f attempt with
    | .ok v => (some v, [])
    | .error e =>
        if isQuotaError e then
          let rest := safeUpdateGo f retries (attempt + 1)
          (rest.1, (attempt + 1) * 5 :: rest.2)
        else if attempt = retries - 1 then (none, [])
        else safeUpdateGo f retries (attempt + 1)
  else (none, [])
termination_by retries - attempt
decreasing_by all_goals simp_wf; omega

/-- `safe_update(func, retries)`. -/
def safeUpdate {α : Type} (f : Nat → Except String α) (retries : Nat) :
    Option α × List Nat :=
  safeUpdateGo f retries 0

/-! ### `convert_date` (src lines 112-152)

The system clock `get_pkt_time()` is modelled as an explicit parameter `now`,
given in seconds since the civil date 0000-03-01 (the epoch of the standard
civil-from-days conversion).  The regex operations of the source are
implemented literally over character lists: word-bounded abbreviation
substitution (`re.sub`), the `a/an <unit> ago` search and the
`<N> <unit>s? ago` search, scanning left to right exactly as `re.search`
does.  The function is total, matching the enclosing `try/except` that
returns the original text on any failure. -/

/-- Regex word character `\w` (ASCII): alphanumeric or underscore. -/
def isWordChar (c : Char) : Bool := c.isAlphanum || c = '_'

/-- A word boundary `\b` immediately at this position: end of string or a
non-word character next. -/
def wordBoundary : List Char → Bool
  | [] => true
  | c :: _ => !isWordChar c

/-- Match `<stem>s?\b` at the head of `l` (the `\b` before the stem is checked
by the caller); returns the number of characters consumed.  The optional `s`
is greedy, as in the regex. -/
def matchStemTail (stem : List Char) (l : List Char) : Option Nat :=
  if startsWithChars stem l then
    match l.drop stem.length with
    | 's' :: rest => if wordBoundary rest then some (stem.length + 1) else none
    | rest => if wordBoundary rest then some stem.length else none
  else none

/-- One pass of `re.sub(r"\b<stem>s?\b", repl, text)`, fuelled by the input
length (each step consumes at least one character, so the fuel suffices).
The boundary flag records whether the previous original character was a
non-word character (or the start of the string). -/
def subStemGo (stem repl : List Char) : Nat → Bool → List Char → List Char
  | 0, _, l => l
  | _ + 1, _, [] => []
  | fuel + 1, bnd, c :: cs =>
      if bnd then
        match matchStemTail stem (c :: cs) with
        | some n => repl ++ subStemGo stem repl fuel false ((c :: cs).drop n)
        | none => c :: subStemGo stem repl fuel (!isWordChar c) cs
      else c :: subStemGo stem repl fuel (!isWordChar c) cs

/-- `re.sub(r"\b<stem>s?\b", repl, text)`. -/
def subStem (stem repl : String) (l : List Char) : List Char :=
  subStemGo stem.data repl.data l.length true l

/-- The abbreviation table of `convert_date`, in source (dict) order:
`secs?`→seconds, `mins?`→minutes, `hrs?`→hours, `wks?`→weeks, `yrs?`→years,
`mon(s)?`→months. -/
def abbrevList : List (String × String) :=
  [("sec", "seconds"), ("min", "minutes"), ("hr", "hours"),
   ("wk", "weeks"), ("yr", "years"), ("mon", "months")]

/-- Apply all abbreviation substitutions in order. -/
def applyAbbrevs (l : List Char) : List Char :=
  abbrevList.foldl (fun t p => subStem p.1 p.2 t) l

/-- The unit alternation `second|minute|hour|day|week|month|year` with each
unit's length in seconds; a month is approximated as 30 days and a year as
365 days, exactly as in the `deltas` dict of the source. -/
def unitList : List (String × Nat) :=
  [("second", 1), ("minute", 60), ("hour", 3600), ("day", 86400),
   ("week", 604800), ("month", 2592000), ("year", 31536000)]

/-- Match one unit word followed by an optional greedy `s` at the head of `l`;
returns the unit's seconds and the remaining characters.  No unit word is a
prefix of another, so at most one alternative matches. -/
def matchUnitFrom : List (String × Nat) → List Char → Option (Nat × List Char)
  | [], _ => none
  | (w, sec) :: rest, l =>
      if startsWithChars w.data l then
        match l.drop w.data.length with
        | 's' :: r => some (sec, r)
        | r => some (sec, r)
      else matchUnitFrom rest l

/-- Match a unit of the alternation at the head of `l`. -/
def matchUnitAt (l : List Char) : Option (Nat × List Char) :=
  matchUnitFrom unitList l

/-- Decimal digits to a number (`int(match.group(1))`). -/
def digitsToNat (ds : List Char) : Nat :=
  ds.foldl (fun acc c => acc * 10 + (c.toNat - 48)) 0

/-- Match `(\d+)\s*(second|minute|hour|day|week|month|year)s?\s*ago` anchored
at the head of `l`; returns the amount and the unit seconds. -/
def matchNumAt (l : List Char) : Option (Nat × Nat) :=
  let ds := l.takeWhile Char.isDigit
  if ds.isEmpty then none
  else
    match matchUnitAt ((l.dropWhile Char.isDigit).dropWhile isPySpace) with
    | none => none
    | some (sec, r) =>
        if startsWithChars "ago".data (r.dropWhile isPySpace) then
          some (digitsToNat ds, sec)
        else none

/-- `re.search` of the numeric pattern: leftmost match wins. -/
def findNum : List Char → Option (Nat × Nat)
  | [] => none
  | c :: cs =>
      match matchNumAt (c :: cs) with
      | some r => some r
      | none => findNum cs

/-- Match `\s+(second|...|year)s?\s*ago\b` (the tail of the `a/an` pattern)
at the head of `l`; returns the unit seconds. -/
def matchAATail (l : List Char) : Option Nat :=
  match l with
  | c :: cs =>
      if isPySpace c then
        match matchUnitAt (cs.dropWhile isPySpace) with
        | some (sec, r) =>
            let r2 := r.dropWhile isPySpace
            if startsWithChars "ago".data r2 && wordBoundary (r2.drop 3) then some sec
            else none
        | none => none
      else none
  | [] => none

/-- Match `(a|an)\s+...` at the head of `l` (boundary before `a` is checked by
the caller).  The two alternatives are disjoint because each must be followed
by whitespace. -/
def matchAAAt : List Char → Option Nat
  | 'a' :: 'n' :: cs =>
      (match matchAATail cs with
       | some r => some r
       | none => matchAATail ('n' :: cs))
  | 'a' :: cs => matchAATail cs
  | _ => none

/-- `re.search` of the `a/an` pattern, scanning with a word-boundary flag. -/
def findAAGo : Bool → List Char → Option Nat
  | _, [] => none
  | prevWord, c :: cs =>
      match (if prevWord then none else matchAAAt (c :: cs)) with
      | some r => some r
      | none => findAAGo (isWordChar c) cs

/-- `re.search(r"\b(a|an)\s+(second|...|year)s?\s*ago\b", text)`. -/
def findAA (l : List Char) : Option Nat := findAAGo false l

/-- Days since 0000-03-01 of a civil date (standard era-based conversion). -/
def daysFromCivil (y m d : Nat) : Nat :=
  let y2 := if m ≤ 2 then y - 1 else y
  let era := y2 / 400
  let yoe := y2 % 400
  let mp := (m + 9) % 12
  let doy := (153 * mp + 2) / 5 + d - 1
  let doe := yoe * 365 + yoe / 4 - yoe / 100 + doy
  era * 146097 + doe

/-- Civil date `(year, month, day)` of a day count since 0000-03-01. -/
def civilFromDays (z : Nat) : Nat × Nat × Nat :=
  let era := z / 146097
  let doe := z % 146097
  let yoe := (doe - doe / 1460 + doe / 36524 - doe / 146096) / 365
  let y := yoe + era * 400
  let doy := doe - (365 * yoe + yoe / 4 - yoe / 100)
  let mp := (5 * doy + 2) / 153
  let d := doy - (153 * mp + 2) / 5 + 1
  let m := if mp < 10 then mp + 3 else mp - 9
  (if m ≤ 2 then y + 1 else y, m, d)

/-- The month abbreviations of `strftime("%b")` (C locale). -/
def monthAbbrevs : List String :=
  ["Jan", "Feb", "Mar", "Apr", "May", "Jun", "Jul", "Aug", "Sep", "Oct", "Nov", "Dec"]

/-- Two-digit zero padding, as in `%d` and `%y`. -/
def pad2 (n : Nat) : String := if n < 10 then "0" ++ toString n else toString n

/-- `strftime("%d-%b-%y")` of an instant given in seconds since 0000-03-01. -/
def fmtDate (secs : Nat) : String :=
  let c := civilFromDays (secs / 86400)
  pad2 c.2.2 ++ "-" ++ monthAbbrevs.getD (c.2.1 - 1) "" ++ "-" ++ pad2 (c.1 % 100)

/-- The normalised text `convert_date` works on: lower-case, stripped, with
the abbreviation substitutions applied. -/
def normText (s : String) : List Char :=
  applyAbbrevs (pyStrip (pyLower s)).data

/-- `convert_date(relative_text)` with the clock `now` passed explicitly. -/
def convertDate (now : Nat) (relative_text : String) : String :=
  if relative_text = "" then ""
  else if normText relative_text = "just now".data ∨ normText relative_text = "now".data then
    fmtDate now
  else if normText relative_text = "yesterday".data then fmtDate (now - 86400)
  else
    match findAA (normText relative_text) with
    | some sec => fmtDate (now - sec)
    | none =>
        match findNum (normText relative_text) with
        | some (amount, sec) => fmtDate (now - amount * sec)
        | none => relative_text

/-- Whether the normalised text matches any pattern `convert_date` recognises. -/
def recognizedPattern (s : String) : Bool :=
  normText s == "just now".data || normText s == "now".data ||
    normText s == "yesterday".data ||
    (findAA (normText s)).isSome || (findNum (normText s)).isSome

/-- 2024-06-15 00:00:00 as seconds since 0000-03-01 (the fixed "now"). -/
def nowJune15 : Nat := 86400 * daysFromCivil 2024 6 15

/-! ### The Profiles sheet model (`SheetsManager`, src lines 524-824)

A sheet is a list of rows (row number `n`, 1-based and including the header
row, is list index `n - 1`).  The cache `existing` maps a lower-cased
stripped nickname to its row number and cached row values, as built by
`load_existing` and updated by `write_profile`.  A scraped record is a total
function from column name to string value (`data.get(col, "")`, with `""`
for missing keys, matching Python truthiness).

Remote writes are assumed to succeed and the sheet is modelled at the
rendered-value level of `get_all_values()`: the per-cell formula writes of
`apply_formulas` store presentation formulas whose rendered value equals the
label that `write_profile` already placed in the row (`""` for the IMAGE
formula, `"Post"` and `"Profile"` for the hyperlink formulas), so they do not
change the rendered row contents; they are recorded in the returned trace of
issued write operations instead. -/

/-- A sheet row: the list of cell values. -/
abbrev Row := List String

/-- A scraped record: column name to value, `""` for absent. -/
abbrev ProfileData := String → String

/-- The fixed 18-column order of the Profiles sheet (src lines 70-74). -/
def COLUMN_ORDER : List String :=
  ["IMAGE", "NICK NAME", "TAGS", "LAST POST", "LAST POST TIME", "FRIEND", "CITY",
   "GENDER", "MARRIED", "AGE", "JOINED", "FOLLOWERS", "STATUS",
   "POSTS", "PROFILE LINK", "INTRO", "SOURCE", "DATETIME SCRAP"]

/-- `COLUMN_MAP[name]`: the 0-based index of a column name. -/
def colIndexGo (name : String) : List String → Nat
  | [] => 0
  | c :: rest => if c = name then 0 else colIndexGo name rest + 1

/-- `COLUMN_MAP = {name: idx for idx, name in enumerate(COLUMN_ORDER)}`. -/
def COLUMN_MAP (name : String) : Nat := colIndexGo name COLUMN_ORDER

/-- A `self.existing` cache entry: `{'row': idx, 'data': row}`. -/
structure CacheEntry where
  row : Nat
  data : Row
deriving DecidableEq

/-- The mutable state of `SheetsManager` relevant to `write_profile`. -/
structure SheetState where
  rows : List Row
  existing : List (String × CacheEntry)
  tagsMap : List (String × String)
deriving DecidableEq

/-- Association-list lookup, modelling Python `dict.get`. -/
def lookupStr {α : Type} : List (String × α) → String → Option α
  | [], _ => none
  | (k2, v) :: rest, k => if k2 = k then some v else lookupStr rest k

/-- Association-list insert-or-replace, modelling Python `dict[k] = v`. -/
def insertStr {α : Type} : List (String × α) → String → α → List (String × α)
  | [], k, v => [(k, v)]
  | (k2, v2) :: rest, k, v =>
      if k2 = k then (k2, v) :: rest else (k2, v2) :: insertStr rest k v

theorem lookupStr_insertStr_self {α : Type} (m : List (String × α)) (k : String) (v : α) :
    lookupStr (insertStr m k v) k = some v := by
  induction m with
  | nil => simp [insertStr, lookupStr]
  | cons p rest ih =>
      by_cases h : p.1 = k
      · simp [insertStr, h, lookupStr]
      · simp [insertStr, h, lookupStr, ih]

/-- `data['TAGS'] = self.tags_map.get(nickname.lower(), "")` applied to the
record (src line 750). -/
def withTags (tagsMap : List (String × String)) (d : ProfileData) : ProfileData :=
  fun c =>
    if c = "TAGS" then (lookupStr tagsMap (pyLower (pyStrip (d "NICK NAME")))).getD ""
    else d c

/-- One cell of the projected row (the `for col in COLUMN_ORDER` loop,
src lines 753-763): the IMAGE cell is left empty for the formula, the
PROFILE LINK and LAST POST cells store a display label when the URL is
truthy, every other cell stores `clean_data` of the value. -/
def projectCell (d : ProfileData) (col : String) : String :=
  if col = "IMAGE" then ""
  else if col = "PROFILE LINK" then (if d col = "" then "" else "Profile")
  else if col = "LAST POST" then (if d col = "" then "" else "Post")
  else cleanData (d col)

/-- The full projected row `row_values` of a record. -/
def projectRow (tagsMap : List (String × String)) (d : ProfileData) : Row :=
  COLUMN_ORDER.map (projectCell (withTags tagsMap d))

/-- The change-detection loop (src lines 774-779): walk the column order with
its index, comparing `old_data[idx]` (or `""` past the end) against
`row_values[idx]`, both stripped, collecting the differing column names. -/
def changedColsGo (old new : Row) : List String → Nat → List String
  | [], _ => []
  | c :: rest, i =>
      if pyStrip (old.getD i "") != pyStrip (new.getD i "") then
        c :: changedColsGo old new rest (i + 1)
      else changedColsGo old new rest (i + 1)

/-- The `changed` list of `write_profile`. -/
def changedCols (old new : Row) : List String :=
  changedColsGo old new COLUMN_ORDER 0

/-- A remote write issued through `safe_update`. -/
inductive WriteOp
  | updateRange (rowNum : Nat) (values : Row)
  | appendRow (values : Row)
  | updateCell (cell : String) (formula : String)
deriving DecidableEq

/-- Whether a write targets a whole row (bulk update or append) rather than a
single cell. -/
def isRowWrite : WriteOp → Bool
  | .updateRange _ _ => true
  | .appendRow _ => true
  | .updateCell _ _ => false

/-- The result dict of `write_profile`. -/
inductive WriteResult
  | error (msg : String)
  | unchanged
  | updated (changedFields : List String)
  | isNew (changedFields : List String)
deriving DecidableEq

/-- The three URL-bearing columns of `apply_formulas` (src line 720).  The
source iterates a Python set literal whose order is unspecified; the model
fixes the literal's textual order. -/
def linkCols : List String := ["IMAGE", "LAST POST", "PROFILE LINK"]

/-- The presentation formula written for a populated URL column
(src lines 729-734). -/
def formulaFor (colName value : String) : String :=
  if colName = "IMAGE" then "=IMAGE(\"" ++ value ++ "\", 4, 50, 50)"
  else if colName = "LAST POST" then "=HYPERLINK(\"" ++ value ++ "\", \"Post\")"
  else "=HYPERLINK(\"" ++ value ++ "\", \"Profile\")"

/-- `apply_formulas(row_idx, data)` (src lines 718-741): for each URL-bearing
column whose value in the record is truthy, issue one single-cell write of
the presentation formula at `col_letter(col_idx) + str(row_idx)`.  Each write
goes through `safe_update`, which returns `None` instead of raising on
failure (see `safeUpdate`), so a failed cell write never undoes anything. -/
def applyFormulas (rowIdx : Nat) (d : ProfileData) : List WriteOp :=
  linkCols.filterMap fun colName =>
    if d colName = "" then none
    else some (.updateCell (colLetter (COLUMN_MAP colName) ++ toString rowIdx)
                 (formulaFor colName (d colName)))

/-- `write_profile(data)` (src lines 743-806).  Returns the result, the new
state, and the trace of issued remote writes.  The appended row's number is
read back as the post-append row count of the sheet
(`len(self.profiles_sheet.get_all_values())`, src line 800). -/
def writeProfile (st : SheetState) (d : ProfileData) :
    WriteResult × SheetState × List WriteOp :=
  if pyStrip (d "NICK NAME") = "" then (.error "No nickname", st, [])
  else
    let rowValues := projectRow st.tagsMap d
    match lookupStr st.existing (pyLower (pyStrip (d "NICK NAME"))) with
    | some e =>
        if (changedCols e.data rowValues).isEmpty then (.unchanged, st, [])
        else
          (.updated (changedCols e.data rowValues),
           ⟨st.rows.set (e.row - 1) rowValues,
            insertStr st.existing (pyLower (pyStrip (d "NICK NAME"))) ⟨e.row, rowValues⟩,
            st.tagsMap⟩,
           .updateRange e.row rowValues :: applyFormulas e.row (withTags st.tagsMap d))
    | none =>
        (.isNew COLUMN_ORDER,
         ⟨st.rows ++ [rowValues],
          insertStr st.existing (pyLower (pyStrip (d "NICK NAME")))
            ⟨(st.rows ++ [rowValues]).length, rowValues⟩,
          st.tagsMap⟩,
         .appendRow rowValues ::
           applyFormulas (st.rows ++ [rowValues]).length (withTags st.tagsMap d))

/-- The case-folded identifier a table row carries, as read back by
`load_existing` (src line 648): cell index 1, stripped and lower-cased. -/
def foldNick (r : Row) : String := pyLower (pyStrip (r.getD 1 ""))

/-! ### `log_online_status` (src lines 707-716)

Always appends `[nickname, "Online", timestamp]` to the Online Status sheet
through `safe_update`; no lookup, no dedup.  The append is modelled as
succeeding (the claim assumes each append operation succeeds). -/

/-- `log_online_status(nickname)` with the timestamp passed explicitly. -/
def logOnlineStatus (eventLog : List Row) (nickname timestamp : String) : List Row :=
  eventLog ++ [[nickname, "Online", timestamp]]

/-! ### The dashboard appends of `main` (src lines 829-979)

`main` is modelled by the list of RunSummary rows it appends to the Dashboard
sheet.  The run is abstracted by: whether browser setup, login and sheets
setup succeed; the list of online nicknames; the per-target processing
outcome; and an optional fatal interruption after `k` targets.  When browser
setup or login fails, `sheets` is still `None` in the `finally` block, so no
row is appended; when sheets setup fails, `update_dashboard` hits a `None`
worksheet and its internal `except` swallows the failure, so again no row is
appended.  With a working sheet, a run with no online users appends a row in
the early-return branch (src lines 862-876) and then the `finally` block
(src lines 954-969) appends a second one; any other run appends exactly the
one `finally` row, from the counters accumulated so far. -/

/-- What happened for one processed target in the main loop. -/
inductive TargetResult
  | wroteNew
  | wroteUpdated
  | wroteUnchanged
  | writeError
  | scrapeFail
deriving DecidableEq

/-- `success += 1` happens exactly for the statuses new/updated/unchanged. -/
def isSuccess : TargetResult → Bool
  | .wroteNew => true
  | .wroteUpdated => true
  | .wroteUnchanged => true
  | .writeError => false
  | .scrapeFail => false

/-- A Dashboard row (the metrics dict of src lines 958-966, without the
constant run number, timestamp and source label). -/
structure RunMetrics where
  profiles : Nat
  successCnt : Nat
  failedCnt : Nat
  newCnt : Nat
  updatedCnt : Nat
deriving DecidableEq

/-- The metrics accumulated after processing a list of targets, where
`total = len(targets)`. -/
def metricsOf (total : Nat) (processed : List TargetResult) : RunMetrics :=
  ⟨total,
   (processed.filter isSuccess).length,
   (processed.filter (fun r => !isSuccess r)).length,
   (processed.filter (fun r => r == TargetResult.wroteNew)).length,
   (processed.filter (fun r => r == TargetResult.wroteUpdated)).length⟩

/-- The RunSummary rows appended by one execution of `main`. -/
def mainDashboardAppends (browserOk loginOk sheetsOk : Bool) (nicks : List String)
    (result : Nat → TargetResult) (interruptAfter : Option Nat) : List RunMetrics :=
  if !browserOk || !loginOk then []
  else if !sheetsOk then []
  else if nicks.isEmpty then [metricsOf 0 [], metricsOf 0 []]
  else
    let k := match interruptAfter with
      | some j => min j nicks.length
      | none => nicks.length
    [metricsOf nicks.length ((List.range k).map result)]

/-! ### Helper lemmas about the reconciler -/

theorem projectCell_trimFixed (d : ProfileData) (col : String) :
    pyStrip (projectCell d col) = projectCell d col := by
  unfold projectCell
  split
  · rfl
  · split
    · split
      · rfl
      · rfl
    · split
      · split
        · rfl
        · rfl
      · exact cleanData_trimFixed _

theorem projectRow_length (tagsMap : List (String × String)) (d : ProfileData) :
    (projectRow tagsMap d).length = COLUMN_ORDER.length := by
  simp [projectRow]

theorem mem_changedColsGo (old new : Row) (col : String) :
    ∀ (cols : List String) (i : Nat),
      (col ∈ changedColsGo old new cols i ↔
        ∃ j, j < cols.length ∧ cols.getD j "" = col ∧
          pyStrip (old.getD (i + j) "") ≠ pyStrip (new.getD (i + j) ""))
  | [], i => by simp [changedColsGo]
  | c :: rest, i => by
      have ih := mem_changedColsGo old new col rest (i + 1)
      unfold changedColsGo
      by_cases hd : pyStrip (old.getD i "") = pyStrip (new.getD i "")
      · rw [if_neg (by rw [bne_iff_ne]; exact not_not_intro hd)]
        rw [ih]
        constructor
        · rintro ⟨j, hj, hc, hne⟩
          refine ⟨j + 1, by simpa using hj, by simpa using hc, ?_⟩
          have he : i + (j + 1) = i + 1 + j := by omega
          rwa [he]
        · rintro ⟨j, hj, hc, hne⟩
          cases j with
          | zero =>
              exact absurd (by simpa using hd) (by simpa using hne)
          | succ j2 =>
              refine ⟨j2, by simpa using hj, by simpa using hc, ?_⟩
              have he : i + 1 + j2 = i + (j2 + 1) := by omega
              rwa [he]
      · rw [if_pos (by rw [bne_iff_ne]; exact hd)]
        simp only [List.mem_cons]
        constructor
        · rintro (rfl | hmem)
          · exact ⟨0, by simp, by simp, by simpa using hd⟩
          · obtain ⟨j, hj, hc, hne⟩ := ih.1 hmem
            refine ⟨j + 1, by simpa using hj, by simpa using hc, ?_⟩
            have he : i + (j + 1) = i + 1 + j := by omega
            rwa [he]
        · rintro ⟨j, hj, hc, hne⟩
          cases j with
          | zero => left; simpa using hc.symm
          | succ j2 =>
              right
              refine ih.2 ⟨j2, by simpa using hj, by simpa using hc, ?_⟩
              have he : i + 1 + j2 = i + (j2 + 1) := by omega
              rwa [he]

theorem mem_changedCols (old new : Row) (col : String) :
    col ∈ changedCols old new ↔
      ∃ j, j < COLUMN_ORDER.length ∧ COLUMN_ORDER.getD j "" = col ∧
        pyStrip (old.getD j "") ≠ pyStrip (new.getD j "") := by
  unfold changedCols
  rw [mem_changedColsGo]
  simp

theorem changedCols_eq_nil_iff (old new : Row) :
    changedCols old new = [] ↔
      ∀ j, j < COLUMN_ORDER.length → pyStrip (old.getD j "") = pyStrip (new.getD j "") := by
  rw [List.eq_nil_iff_forall_not_mem]
  constructor
  · intro h j hj
    by_contra hne
    exact h (COLUMN_ORDER.getD j "") ((mem_changedCols old new _).2 ⟨j, hj, rfl, hne⟩)
  · intro h col hmem
    obtain ⟨j, hj, _, hne⟩ := (mem_changedCols old new col).1 hmem
    exact hne (h j hj)

theorem changedCols_self (r : Row) : changedCols r r = [] :=
  (changedCols_eq_nil_iff r r).2 (fun _ _ => rfl)

theorem projections_eq_of_changedCols_nil (tm1 tm2 : List (String × String))
    (d1 d2 : ProfileData)
    (h : changedCols (projectRow tm1 d1) (projectRow tm2 d2) = []) :
    projectRow tm1 d1 = projectRow tm2 d2 := by
  have hlen : (projectRow tm1 d1).length = (projectRow tm2 d2).length := by
    simp [projectRow]
  apply List.ext_getElem hlen
  intro i h1 h2
  have hi : i < COLUMN_ORDER.length := by simpa [projectRow] using h1
  have hc := (changedCols_eq_nil_iff _ _).1 h i hi
  rw [List.getD_eq_getElem _ _ h1, List.getD_eq_getElem _ _ h2] at hc
  simp only [projectRow, List.getElem_map, projectCell_trimFixed] at hc
  simp only [projectRow, List.getElem_map]
  exact hc

theorem set_append_last {α : Type} (l : List α) (a b : α) :
    (l ++ [a]).set l.length b = l ++ [b] := by
  induction l with
  | nil => rfl
  | cons c t ih => simp [List.set, ih]

/-- The append branch of `write_profile` in closed form. -/
theorem writeProfile_new_case (st : SheetState) (d : ProfileData)
    (hnick : pyStrip (d "NICK NAME") ≠ "")
    (habs : lookupStr st.existing (pyLower (pyStrip (d "NICK NAME"))) = none) :
    writeProfile st d =
      (.isNew COLUMN_ORDER,
       ⟨st.rows ++ [projectRow st.tagsMap d],
        insertStr st.existing (pyLower (pyStrip (d "NICK NAME")))
          ⟨st.rows.length + 1, projectRow st.tagsMap d⟩,
        st.tagsMap⟩,
       .appendRow (projectRow st.tagsMap d) ::
         applyFormulas (st.rows.length + 1) (withTags st.tagsMap d)) := by
  unfold writeProfile
  rw [if_neg hnick, habs]
  simp

theorem list_isEmpty_iff {α : Type} (l : List α) : l.isEmpty = true ↔ l = [] := by
  cases l <;> simp [List.isEmpty]

theorem cleanData_eq_pyStrip (v : String) (h : pyStrip v ∉ removeList) :
    cleanData v = pyStrip v := by
  unfold cleanData
  by_cases hv : v = ""
  · subst hv; rfl
  · rw [if_neg hv, if_neg h]

/-- A record carrying the case-folded identifier `key`, with a non-empty
nickname that is not one of the `clean_data` placeholder literals. -/
def goodNick (key : String) (d : ProfileData) : Prop :=
  pyStrip (d "NICK NAME") ≠ "" ∧ pyLower (pyStrip (d "NICK NAME")) = key ∧
    pyStrip (d "NICK NAME") ∉ removeList

theorem foldNick_projectRow (tm : List (String × String)) (d : ProfileData) (key : String)
    (h : goodNick key d) : foldNick (projectRow tm d) = key := by
  obtain ⟨h1, h2, h3⟩ := h
  unfold foldNick projectRow
  simp only [COLUMN_ORDER, List.map_cons, List.getD_cons_succ, List.getD_cons_zero]
  rw [show projectCell (withTags tm d) "NICK NAME" = cleanData (d "NICK NAME") by
    unfold projectCell withTags
    rw [if_neg (by decide), if_neg (by decide), if_neg (by decide), if_neg (by decide)]]
  rw [cleanData_eq_pyStrip _ h3, pyStrip_idem]
  exact h2

/-- The update/unchanged branch of `write_profile`, stepping the invariant of
a run that keeps reconciling records with the same case-folded identifier:
the cached entry points just past `base` and holds the projection of the
previously applied record; afterwards it holds the projection of the new
record, at the same row number, and the sheet has the new projection in that
same slot. -/
theorem writeProfile_step (base : List Row) (key : String)
    (st : SheetState) (d dPrev : ProfileData)
    (hrows : st.rows = base ++ [projectRow st.tagsMap dPrev])
    (hlook : lookupStr st.existing key =
      some ⟨base.length + 1, projectRow st.tagsMap dPrev⟩)
    (hk : pyLower (pyStrip (d "NICK NAME")) = key)
    (hnick : pyStrip (d "NICK NAME") ≠ "") :
    (writeProfile st d).2.1.tagsMap = st.tagsMap ∧
    (writeProfile st d).2.1.rows = base ++ [projectRow st.tagsMap d] ∧
    lookupStr (writeProfile st d).2.1.existing key =
      some ⟨base.length + 1, projectRow st.tagsMap d⟩ := by
  unfold writeProfile
  rw [if_neg hnick, hk, hlook]
  dsimp only
  by_cases hch : changedCols (projectRow st.tagsMap dPrev) (projectRow st.tagsMap d) = []
  · rw [if_pos (by simp [hch])]
    have hproj := projections_eq_of_changedCols_nil _ _ _ _ hch
    refine ⟨rfl, ?_, ?_⟩
    · rw [hrows, hproj]
    · rw [hlook, hproj]
  · rw [if_neg (by simp [(list_isEmpty_iff _).not.2 hch, -List.isEmpty_eq_true])]
    refine ⟨rfl, ?_, ?_⟩
    · dsimp only
      rw [hrows]
      have he : base.length + 1 - 1 = base.length := by omega
      rw [he, set_append_last]
    · exact lookupStr_insertStr_self _ _ _

/-- After any successful `write_profile` of a record, the cache entry for its
case-folded identifier compares as unchanged against the record's projection. -/
theorem writeProfile_cache_after (st : SheetState) (d : ProfileData)
    (hnick : pyStrip (d "NICK NAME") ≠ "") :
    ∃ rn cached,
      lookupStr (writeProfile st d).2.1.existing (pyLower (pyStrip (d "NICK NAME"))) =
        some ⟨rn, cached⟩ ∧
      changedCols cached (projectRow st.tagsMap d) = [] ∧
      (writeProfile st d).2.1.tagsMap = st.tagsMap := by
  unfold writeProfile
  rw [if_neg hnick]
  cases hlk : lookupStr st.existing (pyLower (pyStrip (d "NICK NAME"))) with
  | none =>
      dsimp only
      exact ⟨_, _, lookupStr_insertStr_self _ _ _, changedCols_self _, rfl⟩
  | some e =>
      dsimp only
      by_cases hch : changedCols e.data (projectRow st.tagsMap d) = []
      · rw [if_pos (by simp [hch])]
        exact ⟨e.row, e.data, hlk, hch, rfl⟩
      · rw [if_neg (by simp [(list_isEmpty_iff _).not.2 hch, -List.isEmpty_eq_true])]
        exact ⟨e.row, _, lookupStr_insertStr_self _ _ _, changedCols_self _, rfl⟩

/-- Two records that agree outside the three URL-bearing columns and whose
URL-bearing values agree at least in emptiness project to the same row. -/
theorem projectRow_congr (tm : List (String × String)) (d1 d2 : ProfileData)
    (hagree : ∀ c, c ≠ "IMAGE" → c ≠ "LAST POST" → c ≠ "PROFILE LINK" → d1 c = d2 c)
    (hpost : d1 "LAST POST" = d2 "LAST POST" ∨ (d1 "LAST POST" ≠ "" ∧ d2 "LAST POST" ≠ ""))
    (hlink : d1 "PROFILE LINK" = d2 "PROFILE LINK" ∨
      (d1 "PROFILE LINK" ≠ "" ∧ d2 "PROFILE LINK" ≠ "")) :
    projectRow tm d1 = projectRow tm d2 := by
  have hnn : d1 "NICK NAME" = d2 "NICK NAME" :=
    hagree "NICK NAME" (by decide) (by decide) (by decide)
  unfold projectRow
  apply List.map_congr_left
  intro col _
  simp only [projectCell, withTags]
  by_cases h1 : col = "IMAGE"
  · simp [h1]
  · by_cases h2 : col = "PROFILE LINK"
    · subst h2
      rcases hlink with h | ⟨ha, hb⟩
      · simp [h1, h]
      · simp [h1, ha, hb]
    · by_cases h3 : col = "LAST POST"
      · subst h3
        rcases hpost with h | ⟨ha, hb⟩
        · simp [h1, h2, h]
        · simp [h1, h2, ha, hb]
      · by_cases h4 : col = "TAGS"
        · subst h4
          simp [hnn]
        · have hc := hagree col h1 h3 h2
          simp [h1, h2, h3, h4, hc]

/-- `write_profile` classifies as unchanged, and writes nothing, whenever the
cached row compares column-by-column (after stripping) equal to the projected
row. -/
theorem writeProfile_unchanged_of_nochange (st : SheetState) (d : ProfileData)
    (e : CacheEntry)
    (hnick : pyStrip (d "NICK NAME") ≠ "")
    (hfound : lookupStr st.existing (pyLower (pyStrip (d "NICK NAME"))) = some e)
    (hch : changedCols e.data (projectRow st.tagsMap d) = []) :
    writeProfile st d = (.unchanged, st, []) := by
  unfold writeProfile
  rw [if_neg hnick, hfound]
  dsimp only
  rw [if_pos (by simp [hch])]

/-- No write issued by `apply_formulas` is a whole-row write. -/
theorem applyFormulas_filter_rowWrites (rn : Nat) (d : ProfileData) :
    (applyFormulas rn d).filter isRowWrite = [] := by
  rw [List.filter_eq_nil_iff]
  intro w hw
  obtain ⟨c, _, hcw⟩ := List.mem_filterMap.1 hw
  by_cases hdc : d c = ""
  · rw [if_pos hdc] at hcw; cases hcw
  · rw [if_neg hdc] at hcw
    cases hcw
    simp [isRowWrite]

/-- Folding further records with the same case-folded identifier over a state
whose cache entry for that identifier sits just past `base` and holds the
projection of the previously applied record preserves that shape; only the
one appended slot ever changes. -/
theorem writeProfile_fold_inv (base : List Row) (key : String)
    (tm : List (String × String)) :
    ∀ (ds : List ProfileData) (dPrev : ProfileData) (st : SheetState),
      st.tagsMap = tm →
      st.rows = base ++ [projectRow tm dPrev] →
      lookupStr st.existing key = some ⟨base.length + 1, projectRow tm dPrev⟩ →
      (∀ d ∈ ds, goodNick key d) →
      ((ds.foldl (fun s d => (writeProfile s d).2.1) st).tagsMap = tm ∧
       (ds.foldl (fun s d => (writeProfile s d).2.1) st).rows =
         base ++ [projectRow tm (ds.getLastD dPrev)] ∧
       lookupStr (ds.foldl (fun s d => (writeProfile s d).2.1) st).existing key =
         some ⟨base.length + 1, projectRow tm (ds.getLastD dPrev)⟩)
  | [], dPrev, st => by
      intro htm hrows hlook _
      exact ⟨htm, by simpa [List.getLastD] using hrows, by simpa [List.getLastD] using hlook⟩
  | c :: cs, dPrev, st => by
      intro htm hrows hlook hgood
      obtain ⟨hn1, hn2, _⟩ := hgood c (List.mem_cons_self c cs)
      have hstep := writeProfile_step base key st c dPrev
        (by rw [htm]; exact hrows)
        (by rw [htm]; exact hlook) hn2 hn1
      obtain ⟨htm2, hrows2, hlook2⟩ := hstep
      rw [htm] at htm2 hrows2 hlook2
      have ih := writeProfile_fold_inv base key tm cs c ((writeProfile st c).2.1)
        htm2 hrows2 hlook2 (fun d hd => hgood d (List.mem_cons_of_mem c hd))
      rw [List.foldl_cons, List.getLastD_cons]
      exact ih

/-! ### Shared concrete examples (used by witnesses and counterexamples) -/

/-- A Profiles sheet holding only the header row, with empty cache and tags. -/
def exHeaderState : SheetState := ⟨[COLUMN_ORDER], [], []⟩

/-- A record whose nickname is the placeholder literal `"none"`. -/
def exNoneData : ProfileData := fun c => if c = "NICK NAME" then "none" else ""

/-- A minimal record for the nickname `Alice`. -/
def exAliceData : ProfileData := fun c => if c = "NICK NAME" then "Alice" else ""

/-- `Alice` with one profile URL. -/
def exUrl1Data : ProfileData :=
  fun c => if c = "PROFILE LINK" then "https://damadam.pk/users/Alice/"
           else if c = "NICK NAME" then "Alice" else ""

/-- `Alice` with a different, also non-empty, profile URL. -/
def exUrl2Data : ProfileData :=
  fun c => if c = "PROFILE LINK" then "https://example.net/u/Alice"
           else if c = "NICK NAME" then "Alice" else ""

/-! ### Claim theorems -/

/-- Claim C1 counterexample: reconciling a record whose identifier is the
placeholder literal `"none"` leaves the persisted Profiles table with zero
rows carrying that case-folded identifier (its NICK NAME cell is blanked by
`clean_data`), not exactly one, even though a reconciliation for `"none"`
did run and assigned a row index in the cache. -/
theorem writeProfile_placeholder_nick_counterexample :
    (((writeProfile exHeaderState exNoneData).2.1.rows.drop 1).filter
        (fun r => foldNick r == "none")).length = 0 ∧
    lookupStr (writeProfile exHeaderState exNoneData).2.1.existing "none" ≠ none := by
  decide

/-- Claim C1 (amended): for every sequence of reconciliations of records
sharing one case-folded identifier whose trimmed nickname is not one of the
`clean_data` placeholder literals, starting from a loaded state whose table
and cache do not yet contain the identifier, the persisted Profiles table
ends with exactly one row for that identifier holding the last record's
projected field values; the table is the original table plus that single
appended row (so the row is never re-appended), and the cache keeps pointing
at the row index assigned on first observation for every subsequent update. -/
theorem writeProfile_identity_unique (st0 : SheetState) (key : String)
    (d0 : ProfileData) (ds : List ProfileData)
    (hhdr : 1 ≤ st0.rows.length)
    (habs : lookupStr st0.existing key = none)
    (hnorow : ∀ r ∈ st0.rows.drop 1, foldNick r ≠ key)
    (hgood : ∀ d ∈ d0 :: ds, goodNick key d) :
    ((d0 :: ds).foldl (fun s d => (writeProfile s d).2.1) st0).rows =
      st0.rows ++ [projectRow st0.tagsMap (ds.getLastD d0)] ∧
    lookupStr ((d0 :: ds).foldl (fun s d => (writeProfile s d).2.1) st0).existing key =
      some ⟨st0.rows.length + 1, projectRow st0.tagsMap (ds.getLastD d0)⟩ ∧
    ((((d0 :: ds).foldl (fun s d => (writeProfile s d).2.1) st0).rows.drop 1).filter
        (fun r => foldNick r == key)).length = 1 := by
  obtain ⟨h1, h2, _⟩ := hgood d0 (List.mem_cons_self d0 ds)
  have hnew := writeProfile_new_case st0 d0 h1 (by rw [h2]; exact habs)
  have hinv := writeProfile_fold_inv st0.rows key st0.tagsMap ds d0
    ((writeProfile st0 d0).2.1)
    (by rw [hnew])
    (by rw [hnew])
    (by rw [hnew]; dsimp only; rw [h2]; exact lookupStr_insertStr_self _ _ _)
    (fun d hd => hgood d (List.mem_cons_of_mem d0 hd))
  obtain ⟨_, hrowsN, hlookN⟩ := hinv
  rw [List.foldl_cons]
  refine ⟨hrowsN, hlookN, ?_⟩
  rw [hrowsN, List.drop_append_of_le_length hhdr, List.filter_append]
  have hf1 : (st0.rows.drop 1).filter (fun r => foldNick r == key) = [] := by
    rw [List.filter_eq_nil_iff]
    intro r hr
    simpa using hnorow r hr
  have hfl : (foldNick (projectRow st0.tagsMap (ds.getLastD d0)) == key) = true := by
    rw [foldNick_projectRow _ _ _ (hgood _ (List.getLastD_mem_cons ds d0))]
    simp
  rw [hf1, List.nil_append]
  generalize projectRow st0.tagsMap (ds.getLastD d0) = x at hfl ⊢
  simp [List.filter_cons, hfl]

/-- Witness for the amended claim C1 at a concrete input: one record for
`Alice` reconciled into a header-only sheet yields exactly one data row whose
case-folded identifier is `alice`. -/
theorem writeProfile_identity_unique_witness :
    (((writeProfile exHeaderState exAliceData).2.1.rows.drop 1).filter
        (fun r => foldNick r == "alice")).length = 1 :=
  (writeProfile_identity_unique exHeaderState "alice" exAliceData []
    (by decide) rfl
    (by intro r hr; simp [exHeaderState] at hr)
    (by
      intro d hd
      rw [List.mem_singleton] at hd
      subst hd
      exact ⟨by decide, by decide, by decide⟩)).2.2

/-- Claim C2: reconciling the same record twice in a row (the cache having
been refreshed by the first write) classifies `new` then `unchanged`; the
second call is never `updated`, changes nothing in the state (in particular
it appends no second row for the case-folded identifier), and issues no
write. -/
theorem writeProfile_idempotent (st : SheetState) (d : ProfileData)
    (hnick : pyStrip (d "NICK NAME") ≠ "")
    (habs : lookupStr st.existing (pyLower (pyStrip (d "NICK NAME"))) = none) :
    (writeProfile st d).1 = .isNew COLUMN_ORDER ∧
    (writeProfile (writeProfile st d).2.1 d).1 = .unchanged ∧
    (writeProfile (writeProfile st d).2.1 d).2.1 = (writeProfile st d).2.1 ∧
    (writeProfile (writeProfile st d).2.1 d).2.2 = [] := by
  have hnew := writeProfile_new_case st d hnick habs
  have hun : writeProfile (writeProfile st d).2.1 d =
      (.unchanged, (writeProfile st d).2.1, []) := by
    apply writeProfile_unchanged_of_nochange _ _
      ⟨st.rows.length + 1, projectRow st.tagsMap d⟩ hnick
    · rw [hnew]
      exact lookupStr_insertStr_self _ _ _
    · rw [hnew]
      exact changedCols_self _
  exact ⟨by rw [hnew], by rw [hun], by rw [hun], by rw [hun]⟩

/-- Witness for claim C2 at a concrete input. -/
theorem writeProfile_idempotent_witness :
    (writeProfile exHeaderState exAliceData).1 = WriteResult.isNew COLUMN_ORDER ∧
    (writeProfile (writeProfile exHeaderState exAliceData).2.1 exAliceData).1 =
      WriteResult.unchanged :=
  have h := writeProfile_idempotent exHeaderState exAliceData (by decide) rfl
  ⟨h.1, h.2.1⟩

/-- Claim C3: with a prior cache entry, the change detection compares the
projected row to the cached row column by column after stripping both sides:
a column is reported as changed exactly when its stripped values differ; if
no column differs the record is classified `unchanged` and no write is
issued; otherwise the result is `updated` with exactly the differing column
names, the only whole-row write issued is the single bulk update of the full
row at the cached position, and the sheet row at that position is overwritten
with the projected row. -/
theorem writeProfile_change_detection (st : SheetState) (d : ProfileData) (e : CacheEntry)
    (hnick : pyStrip (d "NICK NAME") ≠ "")
    (hfound : lookupStr st.existing (pyLower (pyStrip (d "NICK NAME"))) = some e) :
    (∀ col, col ∈ changedCols e.data (projectRow st.tagsMap d) ↔
        ∃ j, j < COLUMN_ORDER.length ∧ COLUMN_ORDER.getD j "" = col ∧
          pyStrip (e.data.getD j "") ≠ pyStrip ((projectRow st.tagsMap d).getD j "")) ∧
    (changedCols e.data (projectRow st.tagsMap d) = [] →
      writeProfile st d = (.unchanged, st, [])) ∧
    (changedCols e.data (projectRow st.tagsMap d) ≠ [] →
      (writeProfile st d).1 = .updated (changedCols e.data (projectRow st.tagsMap d)) ∧
      ((writeProfile st d).2.2).filter isRowWrite =
        [.updateRange e.row (projectRow st.tagsMap d)] ∧
      (writeProfile st d).2.1.rows = st.rows.set (e.row - 1) (projectRow st.tagsMap d)) := by
  refine ⟨fun col => mem_changedCols _ _ _, ?_, ?_⟩
  · intro hch
    exact writeProfile_unchanged_of_nochange st d e hnick hfound hch
  · intro hch
    unfold writeProfile
    rw [if_neg hnick, hfound]
    dsimp only
    rw [if_neg (by simp [(list_isEmpty_iff _).not.2 hch, -List.isEmpty_eq_true])]
    refine ⟨rfl, ?_, rfl⟩
    rw [List.filter_cons_of_pos (by simp [isRowWrite])]
    rw [applyFormulas_filter_rowWrites]

/-- Witness for claim C3 at a concrete input: a cached entry identical to the
projection yields `unchanged` with no write issued. -/
theorem writeProfile_change_detection_witness :
    writeProfile (writeProfile exHeaderState exAliceData).2.1 exAliceData =
      (WriteResult.unchanged, (writeProfile exHeaderState exAliceData).2.1, []) :=
  (writeProfile_change_detection (writeProfile exHeaderState exAliceData).2.1
      exAliceData ⟨2, projectRow [] exAliceData⟩ (by decide) (by decide)).2.1 (by decide)

/-- Claim C9: the unchanged/updated decision for the three URL-bearing
columns compares the stored display labels, not the URLs: if the second of
two consecutive records of the same identifier differs from the first only
in URL-bearing values that stay non-empty (or stay equal) and agrees on all
other fields, the second reconciliation classifies `unchanged`, leaves the
state untouched and writes nothing, even though a URL changed. -/
theorem writeProfile_label_comparison (st : SheetState) (d1 d2 : ProfileData)
    (hnick : pyStrip (d1 "NICK NAME") ≠ "")
    (hagree : ∀ c, c ≠ "IMAGE" → c ≠ "LAST POST" → c ≠ "PROFILE LINK" → d1 c = d2 c)
    (hpost : d1 "LAST POST" = d2 "LAST POST" ∨ (d1 "LAST POST" ≠ "" ∧ d2 "LAST POST" ≠ ""))
    (hlink : d1 "PROFILE LINK" = d2 "PROFILE LINK" ∨
      (d1 "PROFILE LINK" ≠ "" ∧ d2 "PROFILE LINK" ≠ "")) :
    writeProfile (writeProfile st d1).2.1 d2 =
      (.unchanged, (writeProfile st d1).2.1, []) := by
  have hnn : d1 "NICK NAME" = d2 "NICK NAME" :=
    hagree "NICK NAME" (by decide) (by decide) (by decide)
  have hnick2 : pyStrip (d2 "NICK NAME") ≠ "" := by rw [← hnn]; exact hnick
  obtain ⟨rn, cached, hlk, hch, htm⟩ := writeProfile_cache_after st d1 hnick
  have hproj : projectRow st.tagsMap d1 = projectRow st.tagsMap d2 :=
    projectRow_congr st.tagsMap d1 d2 hagree hpost hlink
  apply writeProfile_unchanged_of_nochange _ _ ⟨rn, cached⟩ hnick2
  · rw [show pyLower (pyStrip (d2 "NICK NAME")) = pyLower (pyStrip (d1 "NICK NAME")) by
      rw [hnn]]
    exact hlk
  · rw [htm, ← hproj]
    exact hch

/-- Witness for claim C9 at a concrete input: two records for `Alice`
differing only in a non-empty profile URL reconcile to `unchanged`. -/
theorem writeProfile_label_comparison_witness :
    writeProfile (writeProfile exHeaderState exUrl1Data).2.1 exUrl2Data =
      (WriteResult.unchanged, (writeProfile exHeaderState exUrl1Data).2.1, []) :=
  writeProfile_label_comparison exHeaderState exUrl1Data exUrl2Data (by decide)
    (fun c _ _ h3 => by simp [exUrl1Data, exUrl2Data, h3])
    (Or.inl rfl)
    (Or.inr ⟨by decide, by decide⟩)

/-- Claim C4 (code bug): the no-online-users branch of `main` appends a
RunSummary row and returns, and the `finally` block then appends a second,
identical row — a degenerate run with zero targets appends two Dashboard
rows, not exactly one.  A run interrupted by a fatal error after processing
3 of 10 targets does append exactly one row, from the `finally` block,
reflecting the partial counters (`Success + Failed = 3`). -/
theorem main_dashboard_double_append :
    mainDashboardAppends true true true [] (fun _ => .scrapeFail) none =
      [metricsOf 0 [], metricsOf 0 []] ∧
    (mainDashboardAppends true true true [] (fun _ => .scrapeFail) none).length = 2 ∧
    mainDashboardAppends true true true
        ["n1", "n2", "n3", "n4", "n5", "n6", "n7", "n8", "n9", "n10"]
        (fun _ => .wroteNew) (some 3) =
      [⟨10, 3, 0, 3, 0⟩] := by
  refine ⟨rfl, rfl, by decide⟩

/-- A wrapped operation that fails with a quota signature twice and then
succeeds. -/
def exQuotaF : Nat → Except String Unit :=
  fun i => if i = 0 then .error "429 rate limit" else
           if i = 1 then .error "User Quota exceeded" else .ok ()

/-- A wrapped operation that always fails with a non-quota error. -/
def exPermG : Nat → Except String Unit := fun _ => .error "permission denied"

/-- Claim C5: with three attempts, an operation failing twice with a
quota/rate-limit signature and succeeding on the third attempt makes the
wrapper sleep 5 then 10 units of backoff and return the successful result;
an operation failing every attempt with a non-quota error incurs no backoff
sleep and yields `none` after the attempt ceiling instead of raising. -/
theorem safeUpdate_retry_backoff {α : Type} (f g : Nat → Except String α) (v : α)
    (e0 e1 : String)
    (hf0 : f 0 = .error e0) (hf1 : f 1 = .error e1)
    (hq0 : isQuotaError e0 = true) (hq1 : isQuotaError e1 = true)
    (hf2 : f 2 = .ok v)
    (hg : ∀ i, i < 3 → ∃ e, g i = .error e ∧ isQuotaError e = false) :
    safeUpdate f 3 = (some v, [5, 10]) ∧ safeUpdate g 3 = (none, []) := by
  obtain ⟨ge0, hg0, hgq0⟩ := hg 0 (by omega)
  obtain ⟨ge1, hg1, hgq1⟩ := hg 1 (by omega)
  obtain ⟨ge2, hg2, hgq2⟩ := hg 2 (by omega)
  constructor
  · show safeUpdateGo f 3 0 = (some v, [5, 10])
    rw [safeUpdateGo, if_pos (by omega), hf0]
    rw [safeUpdateGo, if_pos (by omega), hf1]
    rw [safeUpdateGo, if_pos (by omega), hf2]
    simp [hq0, hq1]
  · show safeUpdateGo g 3 0 = (none, [])
    rw [safeUpdateGo, if_pos (by omega), hg0]
    rw [safeUpdateGo, if_pos (by omega), hg1]
    rw [safeUpdateGo, if_pos (by omega), hg2]
    simp [hgq0, hgq1, hgq2]

/-- Witness for claim C5 at concrete operations. -/
theorem safeUpdate_retry_backoff_witness :
    safeUpdate exQuotaF 3 = (some (), [5, 10]) ∧ safeUpdate exPermG 3 = (none, []) :=
  safeUpdate_retry_backoff exQuotaF exPermG () "429 rate limit" "User Quota exceeded"
    rfl rfl (by decide) (by decide) rfl
    (fun _ _ => ⟨"permission denied", rfl, by decide⟩)

/-- Claim C6: with the clock fixed to 2024-06-15, `convert_date` maps
`"2 months ago"` to `"16-Apr-24"` (months counted as 30 days), `"just now"`
to `"15-Jun-24"` and `"yesterday"` to `"14-Jun-24"`; any input matching no
recognised pattern (such as `"sometime"`) is returned unchanged, and the
function is total and never raises. -/
theorem convertDate_spec :
    convertDate nowJune15 "2 months ago" = "16-Apr-24" ∧
    convertDate nowJune15 "just now" = "15-Jun-24" ∧
    convertDate nowJune15 "yesterday" = "14-Jun-24" ∧
    convertDate nowJune15 "sometime" = "sometime" ∧
    (∀ (now : Nat) (s : String), recognizedPattern s = false → convertDate now s = s) := by
  refine ⟨by decide, by decide, by decide, by decide, ?_⟩
  intro now s h
  simp only [recognizedPattern, Bool.or_eq_false_iff] at h
  obtain ⟨⟨⟨⟨hj, hn⟩, hy⟩, ha⟩, hnum⟩ := h
  have haa : findAA (normText s) = none := by
    cases hfa : findAA (normText s) with
    | none => rfl
    | some v => rw [hfa] at ha; simp at ha
  have hnn : findNum (normText s) = none := by
    cases hfn : findNum (normText s) with
    | none => rfl
    | some v => rw [hfn] at hnum; simp at hnum
  unfold convertDate
  by_cases hs : s = ""
  · subst hs; rfl
  · rw [if_neg hs]
    rw [if_neg (by
      rintro (hh | hh)
      · exact absurd hh (by simpa using hj)
      · exact absurd hh (by simpa using hn))]
    rw [if_neg (by intro hh; exact absurd hh (by simpa using hy))]
    rw [haa, hnn]

/-- Witness for claim C6: the unrecognised-pattern clause applied to
`"sometime"` at an arbitrary clock value. -/
theorem convertDate_spec_witness :
    recognizedPattern "sometime" = false ∧ convertDate 12345 "sometime" = "sometime" :=
  ⟨by decide, convertDate_spec.2.2.2.2 12345 "sometime" (by decide)⟩

/-- Claim C7 counterexample: `clean_data` matches the denylist literally, not
up to case: the case variants `"NO CITY"` (of `"no city"`) and `"None"` (of
`"none"`) are returned unchanged rather than normalised to the empty
string. -/
theorem cleanData_case_variant_counterexample :
    cleanData "NO CITY" ≠ "" ∧ cleanData "None" ≠ "" ∧
    cleanData "NO CITY" = "NO CITY" ∧ cleanData "None" = "None" := by
  decide

/-- Claim C7 (amended): every string whose trimmed form is one of the exact
denylist literals of `clean_data` normalises to the empty string; in
particular `"No city"`, `"  N/A "` and `"[No Posts]"` all yield `""`, while
the non-placeholder `"Karachi"` is returned unchanged.  (Arbitrary case
variants are not stripped; only the listed literal spellings are.) -/
theorem cleanData_denylist (v : String) (hv : pyStrip v ∈ removeList) :
    cleanData v = "" ∧ cleanData "No city" = "" ∧ cleanData "  N/A " = "" ∧
    cleanData "[No Posts]" = "" ∧ cleanData "Karachi" = "Karachi" := by
  refine ⟨?_, by decide, by decide, by decide, by decide⟩
  unfold cleanData
  by_cases h : v = ""
  · rw [if_pos h]
  · rw [if_neg h, if_pos hv]

/-- Witness for the amended claim C7 at `"  N/A "`. -/
theorem cleanData_denylist_witness :
    pyStrip "  N/A " ∈ removeList ∧ cleanData "  N/A " = "" :=
  ⟨by decide, (cleanData_denylist "  N/A " (by decide)).1⟩

/-- Claim C8: N calls to the online-event logger append exactly N new rows
`(identifier, "Online", timestamp)` to the event log — the log after the
calls is the old log with precisely those rows appended, with no lookup and
no dedup, independently of any reconciliation outcome for the identifier
(the logger reads no reconciliation state at all). -/
theorem logOnlineStatus_append_only (eventLog : List Row) (nickname : String)
    (timestamps : List String) :
    timestamps.foldl (fun lg ts => logOnlineStatus lg nickname ts) eventLog =
      eventLog ++ timestamps.map (fun ts => [nickname, "Online", ts]) ∧
    (timestamps.foldl (fun lg ts => logOnlineStatus lg nickname ts) eventLog).length =
      eventLog.length + timestamps.length := by
  have h : ∀ (ts : List String) (lg : List Row),
      ts.foldl (fun l t => logOnlineStatus l nickname t) lg =
        lg ++ ts.map (fun t => [nickname, "Online", t]) := by
    intro ts
    induction ts with
    | nil => intro lg; simp
    | cons t rest ih =>
        intro lg
        rw [List.foldl_cons, ih, List.map_cons]
        simp [logOnlineStatus]
  refine ⟨h timestamps eventLog, ?_⟩
  rw [h timestamps eventLog]
  simp

/-- Claim C10: `apply_formulas` issues exactly one single-cell write per
populated URL-bearing column — the list of issued writes is precisely the
populated columns mapped to an `updateCell` of the presentation formula
(image-render formula for IMAGE, hyperlink formula for LAST POST and PROFILE
LINK) at the cell `col_letter(column offset) ++ row index`, the offsets
converting to letters A, D and O; and the row write is independent of the
formula writes: after the append path of `write_profile`, the sheet rows are
the old rows plus the projected row, the cell writes being issued only after
the row write in the trace (a failed cell write returns `none` through
`safe_update` rather than raising, so the row write is never rolled back). -/
theorem applyFormulas_spec (rowIdx : Nat) (d : ProfileData) :
    applyFormulas rowIdx d =
      (linkCols.filter (fun c => d c != "")).map
        (fun c => WriteOp.updateCell (colLetter (COLUMN_MAP c) ++ toString rowIdx)
          (formulaFor c (d c))) ∧
    colLetter (COLUMN_MAP "IMAGE") = "A" ∧
    colLetter (COLUMN_MAP "LAST POST") = "D" ∧
    colLetter (COLUMN_MAP "PROFILE LINK") = "O" ∧
    (∀ st : SheetState, pyStrip (d "NICK NAME") ≠ "" →
      lookupStr st.existing (pyLower (pyStrip (d "NICK NAME"))) = none →
      (writeProfile st d).2.1.rows = st.rows ++ [projectRow st.tagsMap d] ∧
      (writeProfile st d).2.2 =
        .appendRow (projectRow st.tagsMap d) ::
          applyFormulas (st.rows.length + 1) (withTags st.tagsMap d)) := by
  refine ⟨?_, by decide, by decide, by decide, ?_⟩
  · unfold applyFormulas linkCols
    by_cases h1 : d "IMAGE" = "" <;> by_cases h2 : d "LAST POST" = "" <;>
      by_cases h3 : d "PROFILE LINK" = "" <;>
      simp [List.filterMap_cons, List.filter_cons, h1, h2, h3]
  · intro st hnick habs
    have hnew := writeProfile_new_case st d hnick habs
    exact ⟨by rw [hnew], by rw [hnew]⟩

/-- Witness for claim C10 at a concrete record with one populated URL. -/
theorem applyFormulas_spec_witness :
    applyFormulas 2 exUrl1Data =
      [WriteOp.updateCell "O2"
        "=HYPERLINK(\"https://damadam.pk/users/Alice/\", \"Profile\")"] ∧
    (writeProfile exHeaderState exUrl1Data).2.1.rows =
      exHeaderState.rows ++ [projectRow exHeaderState.tagsMap exUrl1Data] :=
  ⟨by rw [(applyFormulas_spec 2 exUrl1Data).1]; decide,
   ((applyFormulas_spec 2 exUrl1Data).2.2.2.2 exHeaderState (by decide) rfl).1⟩

end Scraper
